import Mathlib

/-!
Verification of the zytemp_mqtt frame-protocol layer (`zytempmqtt/ZyTemp.py`).

Frames are 8-byte blocks, embedded as functions `Fin 8 → Nat` whose values are
byte-sized (`< 256`) wherever a claim needs it.  Python integer arithmetic is
embedded as `Nat`/`Int` arithmetic with the source's own masking (`&&& 0xff`);
Python floats are embedded as exact rationals `ℚ` (the conversions only divide
by 16 and subtract the literal 273.15).
-/

/-- The fixed decryption key `KEY` (line 17 of the source). -/
def KEY : Fin 8 → Nat := ![0xc4, 0xc6, 0xc0, 0x92, 0x40, 0x23, 0xdc, 0x96]

/-- The fixed constant `cstate` local to `decrypt`. -/
def cstate : Fin 8 → Nat := ![0x48, 0x74, 0x65, 0x6D, 0x70, 0x39, 0x39, 0x65]

/-- The fixed index sequence `shuffle` local to `decrypt`. -/
def shuffle : Fin 8 → Fin 8 := ![2, 4, 0, 7, 1, 6, 5, 3]

/-- Stage 1 of `decrypt`: the loop `for i, o in enumerate(shuffle): phase1[o] = data[i]`,
an imperative fill of an all-zero array, embedded as a fold of pointwise updates. -/
def phase1fill (data : Fin 8 → Nat) : Fin 8 → Nat :=
  (List.finRange 8).foldl (fun acc i => Function.update acc (shuffle i) (data i)) (fun _ => 0)

/-- Stage 2 of `decrypt`: `phase2[i] = phase1[i] ^ key[i]`. -/
def xorKey (key s : Fin 8 → Nat) : Fin 8 → Nat := fun i => s i ^^^ key i

/-- Stage 3 of `decrypt`: `phase3[i] = ((phase2[i] >> 3) | (phase2[(i-1+8)%8] << 5)) & 0xff`.
Python's `(i-1+8)%8` on integers is exactly subtraction in `Fin 8`. -/
def rot3 (s : Fin 8 → Nat) : Fin 8 → Nat :=
  fun i => ((s i >>> 3) ||| (s (i - 1) <<< 5)) &&& 0xff

/-- Stage 4 of `decrypt`: `ctmp[i] = ((cstate[i] >> 4) | (cstate[i] << 4)) & 0xff`. -/
def ctmp : Fin 8 → Nat := fun i => ((cstate i >>> 4) ||| (cstate i <<< 4)) &&& 0xff

/-- Stage 5 of `decrypt`: `out[i] = (0x100 + phase3[i] - ctmp[i]) & 0xff`. -/
def subCtmp (s : Fin 8 → Nat) : Fin 8 → Nat := fun i => (0x100 + s i - ctmp i) &&& 0xff

/-- The module-level function `decrypt(key, data)` (lines 172-196 of the source):
the five local arrays `phase1`, `phase2`, `phase3`, `ctmp`, `out` are computed in
sequence; each stage above is one of those loops. -/
def decrypt (key data : Fin 8 → Nat) : Fin 8 → Nat :=
  subCtmp (rot3 (xorKey key (phase1fill data)))

/-! ### Basic facts about the stages -/

theorem phase1fill_apply (data : Fin 8 → Nat) :
    phase1fill data = fun o => data (shuffle o) := by
  funext o
  fin_cases o <;> simp [phase1fill, List.finRange, Function.update, shuffle] <;> rfl

theorem shuffle_shuffle : ∀ i, shuffle (shuffle i) = i := by decide

theorem land255_eq_mod (x : Nat) : x &&& 255 = x % 256 := by
  have h := Nat.and_pow_two_sub_one_eq_mod x 8
  norm_num at h
  exact h

theorem rot3_lt (s : Fin 8 → Nat) : ∀ i, rot3 s i < 256 := by
  intro i
  have h := Nat.and_le_right (n := (s i >>> 3) ||| (s (i - 1) <<< 5)) (m := 255)
  simpa [rot3] using Nat.lt_succ_of_le h

theorem subCtmp_lt (s : Fin 8 → Nat) : ∀ i, subCtmp s i < 256 := by
  intro i
  have h := Nat.and_le_right (n := 0x100 + s i - ctmp i) (m := 255)
  simpa [subCtmp] using Nat.lt_succ_of_le h

theorem ctmp_lt : ∀ i, ctmp i < 256 := by decide

theorem xorKey_lt (key s : Fin 8 → Nat) (hk : ∀ i, key i < 256) (hs : ∀ i, s i < 256) :
    ∀ i, xorKey key s i < 256 := by
  intro i
  have h : s i ^^^ key i < 2 ^ 8 := Nat.xor_lt_two_pow (by simpa using hs i) (by simpa using hk i)
  simpa [xorKey] using h

/-! ### The inverse transform, used to prove injectivity -/

/-- Inverse of stage 5: add the nibble-swapped constant back, mod 256. -/
def addCtmp (s : Fin 8 → Nat) : Fin 8 → Nat := fun i => (s i + ctmp i) &&& 0xff

/-- Inverse of stage 3: put the high five bits back down and fetch the three
low bits from the right neighbour. -/
def unRot3 (t : Fin 8 → Nat) : Fin 8 → Nat :=
  fun i => ((t i <<< 3) &&& 0xff) ||| (t (i + 1) >>> 5)

/-- Inverse of stage 1: read the array at the shuffled position. -/
def unPhase1 (p : Fin 8 → Nat) : Fin 8 → Nat := fun i => p (shuffle i)

/-- The full inverse of `decrypt key`. -/
def encrypt (key out : Fin 8 → Nat) : Fin 8 → Nat :=
  unPhase1 (xorKey key (unRot3 (addCtmp out)))

theorem stage5_byte (p c : Nat) (hp : p < 256) (hc : c < 256) :
    (((0x100 + p - c) &&& 0xff) + c) &&& 0xff = p := by
  rw [show (0xff : Nat) = 255 from rfl, land255_eq_mod, land255_eq_mod]
  omega

theorem stage3_byte (a b c : Nat) (ha : a < 256) (hb : b < 256) (hc : c < 256) :
    (((((b >>> 3) ||| (a <<< 5)) &&& 0xff) <<< 3) &&& 0xff)
      ||| ((((c >>> 3) ||| (b <<< 5)) &&& 0xff) >>> 5) = b := by
  have hsr3 : ∀ x : Nat, x >>> 3 = x / 8 := fun x => by
    rw [Nat.shiftRight_eq_div_pow]
  have hsr5 : ∀ x : Nat, x >>> 5 = x / 32 := fun x => by
    rw [Nat.shiftRight_eq_div_pow]
  have hsl3 : ∀ x : Nat, x <<< 3 = x * 8 := fun x => by
    rw [Nat.shiftLeft_eq]
  have hsl5 : ∀ x : Nat, x <<< 5 = x * 32 := fun x => by
    rw [Nat.shiftLeft_eq]
  have hor1 : (b >>> 3) ||| (a <<< 5) = 32 * a + b / 8 := by
    have hlt : b / 8 < 2 ^ 5 := by omega
    have h := Nat.mul_add_lt_is_or hlt a
    norm_num at h
    rw [hsr3, hsl5, Nat.lor_comm, Nat.mul_comm a 32]
    exact h.symm
  have hor2 : (c >>> 3) ||| (b <<< 5) = 32 * b + c / 8 := by
    have hlt : c / 8 < 2 ^ 5 := by omega
    have h := Nat.mul_add_lt_is_or hlt b
    norm_num at h
    rw [hsr3, hsl5, Nat.lor_comm, Nat.mul_comm b 32]
    exact h.symm
  rw [hor1, hor2, show (0xff : Nat) = 255 from rfl, land255_eq_mod, land255_eq_mod,
    land255_eq_mod, hsl3, hsr5]
  have e1 : (32 * a + b / 8) % 256 * 8 % 256 = 8 * (b / 8) := by omega
  have e2 : (32 * b + c / 8) % 256 / 32 = b % 8 := by omega
  rw [e1, e2]
  have hlt : b % 8 < 2 ^ 3 := by omega
  have h := Nat.mul_add_lt_is_or hlt (b / 8)
  norm_num at h
  rw [← h]
  omega

theorem addCtmp_subCtmp (s : Fin 8 → Nat) (hs : ∀ i, s i < 256) :
    addCtmp (subCtmp s) = s := by
  funext i
  exact stage5_byte (s i) (ctmp i) (hs i) (ctmp_lt i)

theorem unRot3_rot3 (s : Fin 8 → Nat) (hs : ∀ i, s i < 256) : unRot3 (rot3 s) = s := by
  funext i
  have e : i + 1 - 1 = i := by omega
  show ((rot3 s i <<< 3) &&& 0xff) ||| (rot3 s (i + 1) >>> 5) = s i
  have h1 : rot3 s i = ((s i >>> 3) ||| (s (i - 1) <<< 5)) &&& 0xff := rfl
  have h2 : rot3 s (i + 1) = ((s (i + 1) >>> 3) ||| (s i <<< 5)) &&& 0xff := by
    show ((s (i + 1) >>> 3) ||| (s (i + 1 - 1) <<< 5)) &&& 0xff = _
    rw [e]
  rw [h1, h2]
  exact stage3_byte (s (i - 1)) (s i) (s (i + 1)) (hs _) (hs _) (hs _)

theorem xorKey_xorKey (key s : Fin 8 → Nat) : xorKey key (xorKey key s) = s := by
  funext i
  exact Nat.xor_cancel_right (key i) (s i)

theorem unPhase1_phase1fill (data : Fin 8 → Nat) : unPhase1 (phase1fill data) = data := by
  funext i
  show phase1fill data (shuffle i) = data i
  rw [phase1fill_apply]
  exact congrArg data (shuffle_shuffle i)

theorem encrypt_decrypt (key data : Fin 8 → Nat)
    (hk : ∀ i, key i < 256) (hd : ∀ i, data i < 256) :
    encrypt key (decrypt key data) = data := by
  have hp1 : ∀ i, phase1fill data i < 256 := by
    intro i
    rw [phase1fill_apply]
    exact hd (shuffle i)
  have hp2 : ∀ i, xorKey key (phase1fill data) i < 256 := xorKey_lt key _ hk hp1
  show unPhase1 (xorKey key (unRot3 (addCtmp (subCtmp (rot3 (xorKey key (phase1fill data))))))) = data
  rw [addCtmp_subCtmp _ (rot3_lt _), unRot3_rot3 _ hp2, xorKey_xorKey, unPhase1_phase1fill]

theorem KEY_lt : ∀ i, KEY i < 256 := by decide

/-! ### Measurement table and decoding (`ZyTemp.MEASUREMENTS`, lines 23-38) -/

/-- The Temperature conversion lambda: `lambda x: x / 16 - 273.15`.  Python float
arithmetic embedded over exact rationals. -/
def temperatureConversion : ℚ → ℚ := fun x => x / 16 - 273.15

/-- The CO2 conversion lambda: `lambda x: x`. -/
def co2Conversion : ℚ → ℚ := fun x => x

/-- One entry of the `ZyTemp.MEASUREMENTS` dict (the Home-Assistant display
fields carry no protocol logic and are omitted). -/
structure Measurement where
  name : String
  unit : String
  conversion : ℚ → ℚ

/-- The static dict `ZyTemp.MEASUREMENTS`, keyed by the tag byte: exactly the
entries `0x42` (Temperature) and `0x50` (CO2). -/
def MEASUREMENTS (tag : Nat) : Option Measurement :=
  if tag = 0x42 then some { name := "Temperature", unit := "°C", conversion := temperatureConversion }
  else if tag = 0x50 then some { name := "CO2", unit := "ppm", conversion := co2Conversion }
  else none

/-- The Measurement Decoder: look up `r[0]`, and on success pair the entry's name
with the conversion applied to `r[1] << 8 | r[2]` (lines 119-129 of `run`). -/
def decode (r : Fin 8 → Nat) : Option (String × ℚ) :=
  (MEASUREMENTS (r 0)).map fun m => (m.name, m.conversion (((r 1 <<< 8) ||| r 2 : ℕ) : ℚ))

/-! ### Snapshot cache (`self.values`, `ZyTemp.update`, lines 46 and 86-95) -/

/-- The dict `self.values`, which always holds exactly one optional entry per
measurement name ("Temperature" and "CO2"). -/
structure Values where
  temperature : Option ℚ
  co2 : Option ℚ
deriving DecidableEq

/-- `self.values = {v['name']: None for v in ZyTemp.MEASUREMENTS.values()}` (line 46). -/
def initValues : Values := ⟨none, none⟩

/-- Dict lookup `self.values[key]`. -/
def Values.get (vs : Values) (name : String) : Option ℚ :=
  if name = "Temperature" then vs.temperature
  else if name = "CO2" then vs.co2
  else none

/-- Dict store `self.values[key] = value`. -/
def Values.set (vs : Values) (name : String) (x : ℚ) : Values :=
  if name = "Temperature" then { vs with temperature := some x }
  else if name = "CO2" then { vs with co2 := some x }
  else vs

/-- `ZyTemp.update(self, key, value)` (lines 86-95): returns the new dict and the
snapshot passed to `self.m.publish`, if any. -/
def update (vs : Values) (name : String) (value : ℚ) : Values × Option Values :=
  if vs.get name = some value then (vs, none)
  else
    let vs' := vs.set name value
    if vs'.temperature = none ∨ vs'.co2 = none then (vs', none)
    else (vs', some vs')

/-! ### The session loop (`ZyTemp.run`, lines 97-141) -/

/-- Mutable per-session state: `self.measurements_to_ignore` (a Python int, so an
integer here) and `self.values`. -/
structure State where
  measurementsToIgnore : ℤ
  values : Values
deriving DecidableEq

/-- `IGNORE_N_MEASUREMENTS = 5` (line 14). -/
def IGNORE_N_MEASUREMENTS : ℤ := 5

/-- The state set up by `ZyTemp.__init__` (lines 45-46). -/
def initState : State := ⟨IGNORE_N_MEASUREMENTS, initValues⟩

/-- Outcome of one `self.h.read(8)` call: an `OSError`, a zero-length result, or
an 8-byte report. -/
inductive ReadResult where
  | osError : ReadResult
  | empty : ReadResult
  | frame : (Fin 8 → Nat) → ReadResult

/-- Outcome of one iteration of the `while True:` loop: the loop `return`s (the
flag records whether `run` itself called `self.h.close()`), or it continues with
a new state, having possibly published a snapshot and possibly pumped the MQTT
client via `self.m.run(0.1)`. -/
inductive StepResult where
  | terminated : Bool → StepResult
  | continued : State → Option Values → Bool → StepResult
deriving DecidableEq

/-- The Frame Validator, lines 111-117 of `run`: decrypt unless `r[4] == 0x0d`,
then check `r[3] == sum(r[0:3]) & 0xff`; `none` models the checksum-error
`continue`. -/
def validate (raw : Fin 8 → Nat) : Option (Fin 8 → Nat) :=
  let r := if raw 4 ≠ 0x0d then decrypt KEY raw else raw
  if r 3 ≠ (r 0 + r 1 + r 2) &&& 0xff then none else some r

/-- One iteration of the `while True:` loop in `ZyTemp.run` (lines 100-141). -/
def step (s : State) : ReadResult → StepResult
  | .osError => .terminated false
  | .empty => .terminated true
  | .frame raw =>
    match validate raw with
    | none => .continued s none false
    | some r =>
      match MEASUREMENTS (r 0) with
      | none => .continued s none false
      | some m =>
        let reading := m.conversion (((r 1 <<< 8) ||| r 2 : ℕ) : ℚ)
        let vp := if 0 < s.measurementsToIgnore then (s.values, (none : Option Values))
          else update s.values m.name reading
        let remaining := if m.name = "CO2" ∧ s.measurementsToIgnore ≠ 0
          then s.measurementsToIgnore - 1 else s.measurementsToIgnore
        .continued ⟨remaining, vp.1⟩ vp.2 true

/-- Run the loop over a list of read results, stopping at the first fatal one. -/
def processList (s : State) : List ReadResult → State
  | [] => s
  | r :: rest =>
    match step s r with
    | .terminated _ => s
    | .continued s' _ _ => processList s' rest

/-- Whether a read result terminates the loop. -/
def fatal : ReadResult → Bool
  | .osError => true
  | .empty => true
  | .frame _ => false

/-- Whether a read result is a frame that validates and decodes as a CO2 reading
(tag `0x50`), the condition under which the calibration counter is decremented. -/
def isCO2Read : ReadResult → Bool
  | .frame raw =>
    match validate raw with
    | some r => r 0 == 0x50
    | none => false
  | _ => false

/-- Whether the iteration reached the `self.m.run(0.1)` network-pump call. -/
def stepPumped (s : State) (r : ReadResult) : Bool :=
  match step s r with
  | .continued _ _ p => p
  | .terminated _ => false

/-- How many times `run` itself closes the device handle when the given read
result terminates the loop (lines 100-109): zero on the `OSError` path, once on
the zero-length path. -/
def closesInRun (r : ReadResult) : Nat :=
  match step initState r with
  | .terminated b => if b then 1 else 0
  | .continued _ _ _ => 0

/-- `ZyTemp.__del__` (lines 48-49) closes the handle unconditionally when the
session object is destroyed. -/
def destructorCloses : Nat := 1

/-- Total number of `self.h.close()` calls over the life of a session that ends
with the given fatal read result. -/
def sessionCloses (r : ReadResult) : Nat := closesInRun r + destructorCloses

/-! ### Spec-side stage definitions for C1 (named from the spec's wording, to be
compared with `decrypt` as translated from the source) -/

/-- Spec stage 1: the permutation in which output position `shuffle[i]` receives
`input[i]`.  Executable form: read the input at the shuffled position, which is
the same permutation because `shuffle` is an involution (`shuffle_shuffle`); the
claim theorem re-establishes the "receives" phrasing literally. -/
def spec_stage1 (input : Fin 8 → Nat) : Fin 8 → Nat := fun o => input (shuffle o)

/-- Spec stage 2: byte-wise XOR with the key. -/
def spec_stage2 (key s : Fin 8 → Nat) : Fin 8 → Nat := fun i => s i ^^^ key i

/-- Spec stage 3: `((stage2[i] >> 3) | (stage2[(i-1+8) mod 8] << 5)) & 0xFF`. -/
def spec_stage3 (s : Fin 8 → Nat) : Fin 8 → Nat :=
  fun i => ((s i >>> 3) ||| (s (i - 1) <<< 5)) &&& 0xFF

/-- Spec stage 4: nibble swap of the fixed constant `cstate`. -/
def spec_swapped : Fin 8 → Nat := fun i => ((cstate i >>> 4) ||| (cstate i <<< 4)) &&& 0xFF

/-- Spec stage 5: `output[i] = (0x100 + stage3[i] - swapped[i]) & 0xFF`. -/
def spec_stage5 (s : Fin 8 → Nat) : Fin 8 → Nat :=
  fun i => (0x100 + s i - spec_swapped i) &&& 0xFF

/-- C1: for every 8-byte input, `decrypt` with the fixed key equals the
composition of the five specified stages — the permutation in which position
`shuffle[i]` receives `input[i]`, the XOR with the key, the neighbour-mixing
shift, and the modular subtraction of the nibble-swapped constant — and, being a
Lean function into `Fin 8 → Nat`, it is pure, deterministic and total, always
producing 8 output bytes each in `0..255`. -/
theorem c1_decrypt_is_five_stages (data : Fin 8 → Nat) :
    decrypt KEY data = spec_stage5 (spec_stage3 (spec_stage2 KEY (spec_stage1 data)))
    ∧ (∀ i, spec_stage1 data (shuffle i) = data i)
    ∧ (∀ i, decrypt KEY data i < 256) := by
  refine ⟨?_, ?_, ?_⟩
  · show subCtmp (rot3 (xorKey KEY (phase1fill data))) = _
    rw [phase1fill_apply]
    rfl
  · intro i
    show data (shuffle (shuffle i)) = data i
    rw [shuffle_shuffle]
  · exact subCtmp_lt _

/-- C6: the Byte Transform with the fixed key is injective on the space of
8-byte blocks: equal outputs imply equal inputs. -/
theorem c6_decrypt_injective (a b : Fin 8 → Nat)
    (ha : ∀ i, a i < 256) (hb : ∀ i, b i < 256)
    (h : decrypt KEY a = decrypt KEY b) : a = b := by
  have h1 := encrypt_decrypt KEY a KEY_lt ha
  have h2 := encrypt_decrypt KEY b KEY_lt hb
  rw [← h1, ← h2, h]

/-- The all-zero frame, used as a concrete injectivity witness. -/
def zeroFrame : Fin 8 → Nat := fun _ => 0

/-- Witness for C6 at a concrete byte frame. -/
theorem c6_witness : (∀ i, zeroFrame i < 256) ∧ zeroFrame = zeroFrame :=
  ⟨by decide, c6_decrypt_injective zeroFrame zeroFrame (by decide) (by decide) rfl⟩

/-- C2: the Frame Validator applies the Byte Transform exactly when
`raw[4] ≠ 0x0d` (otherwise the raw bytes are the candidate verbatim), accepts
the candidate iff `candidate[3] = (candidate[0]+candidate[1]+candidate[2]) & 0xff`,
and a violating candidate makes the loop discard the frame and continue
unchanged. -/
theorem c2_validator_spec (raw : Fin 8 → Nat) :
    (raw 4 = 0x0d →
      validate raw = if raw 3 = (raw 0 + raw 1 + raw 2) &&& 0xff then some raw else none)
    ∧ (raw 4 ≠ 0x0d →
      validate raw =
        if (decrypt KEY raw) 3 = ((decrypt KEY raw) 0 + (decrypt KEY raw) 1 + (decrypt KEY raw) 2) &&& 0xff
        then some (decrypt KEY raw) else none)
    ∧ (∀ c, validate raw = some c → c 3 = (c 0 + c 1 + c 2) &&& 0xff)
    ∧ (∀ s, validate raw = none → step s (.frame raw) = .continued s none false) := by
  refine ⟨?_, ?_, ?_, ?_⟩
  · intro h
    by_cases hc : raw 3 = (raw 0 + raw 1 + raw 2) &&& 0xff <;> simp [validate, h, hc]
  · intro h
    by_cases hc : (decrypt KEY raw) 3 =
        ((decrypt KEY raw) 0 + (decrypt KEY raw) 1 + (decrypt KEY raw) 2) &&& 0xff <;>
      simp [validate, h, hc]
  · intro c hc
    unfold validate at hc
    generalize (if raw 4 ≠ 0x0d then decrypt KEY raw else raw) = r at hc
    by_cases h : r 3 = (r 0 + r 1 + r 2) &&& 0xff
    · rw [if_neg (not_not_intro h)] at hc
      have hrc := Option.some.inj hc
      rw [← hrc]
      exact h
    · rw [if_pos h] at hc
      exact Option.noConfusion hc
  · intro s hv
    simp [step, hv]

/-- A valid plaintext Temperature frame: tag `0x42`, value `0x1194`, correct
checksum `0xE7`, plaintext marker `0x0d`. -/
def tempFrame : Fin 8 → Nat := ![0x42, 0x11, 0x94, 0xE7, 0x0d, 0, 0, 0]

/-- A valid plaintext CO2 frame: tag `0x50`, value `0x0258` (600 ppm), correct
checksum `0xAA`, plaintext marker `0x0d`. -/
def co2Frame : Fin 8 → Nat := ![0x50, 0x02, 0x58, 0xAA, 0x0d, 0, 0, 0]

/-- A plaintext-marked frame whose checksum is wrong (`1 ≠ 0`). -/
def badChecksumFrame : Fin 8 → Nat := ![0, 0, 0, 1, 0x0d, 0, 0, 0]

/-- A plaintext-marked frame with a correct checksum but an unknown tag `0x99`. -/
def unknownTagFrame : Fin 8 → Nat := ![0x99, 0, 0, 0x99, 0x0d, 0, 0, 0]

/-- Witness for C2: a concrete valid plaintext frame is accepted verbatim, and a
concrete checksum-violating frame is discarded with the loop state unchanged. -/
theorem c2_witness :
    validate tempFrame = some tempFrame
    ∧ step initState (.frame badChecksumFrame) = .continued initState none false := by
  constructor
  · rw [(c2_validator_spec tempFrame).1 (by decide), if_pos (by decide)]
  · exact (c2_validator_spec badChecksumFrame).2.2.2 initState rfl

/-- C3: the Measurement Decoder looks `frame[0]` up in the static two-entry
table (`0x42` → Temperature, `0x50` → CO2); an absent tag fails and the loop
discards the frame and continues with the state unchanged; on success the raw
big-endian value `v = frame[1] << 8 | frame[2]` is converted to `v/16 - 273.15`
for Temperature and kept unchanged for CO2. -/
theorem c3_decoder_spec (r : Fin 8 → Nat) :
    (decode r = none ↔ (r 0 ≠ 0x42 ∧ r 0 ≠ 0x50))
    ∧ (r 0 = 0x42 →
        decode r = some ("Temperature", (((r 1 <<< 8) ||| r 2 : ℕ) : ℚ) / 16 - 273.15))
    ∧ (r 0 = 0x50 → decode r = some ("CO2", (((r 1 <<< 8) ||| r 2 : ℕ) : ℚ)))
    ∧ (∀ tag, (MEASUREMENTS tag).isSome ↔ (tag = 0x42 ∨ tag = 0x50))
    ∧ (∀ s raw c, validate raw = some c → MEASUREMENTS (c 0) = none →
        step s (.frame raw) = .continued s none false) := by
  refine ⟨?_, ?_, ?_, ?_, ?_⟩
  · by_cases h42 : r 0 = 0x42 <;> by_cases h50 : r 0 = 0x50 <;>
      simp [decode, MEASUREMENTS, h42, h50]
  · intro h
    simp [decode, MEASUREMENTS, h, temperatureConversion]
  · intro h
    simp [decode, MEASUREMENTS, h, co2Conversion]
  · intro tag
    by_cases h42 : tag = 0x42 <;> by_cases h50 : tag = 0x50 <;>
      simp [MEASUREMENTS, h42, h50]
  · intro s raw c hv hm
    simp [step, hv, hm]

/-- Witness for C3 at concrete frames: the Temperature and CO2 frames decode to
the converted values, and a validated unknown-tag frame is discarded with the
state unchanged. -/
theorem c3_witness :
    decode tempFrame = some ("Temperature", (4500 : ℚ) / 16 - 273.15)
    ∧ decode co2Frame = some ("CO2", (600 : ℚ))
    ∧ step initState (.frame unknownTagFrame) = .continued initState none false := by
  refine ⟨?_, ?_, ?_⟩
  · rw [(c3_decoder_spec tempFrame).2.1 (by decide),
      show tempFrame 1 <<< 8 ||| tempFrame 2 = 4500 from by decide]
    norm_num
  · rw [(c3_decoder_spec co2Frame).2.2.1 (by decide),
      show co2Frame 1 <<< 8 ||| co2Frame 2 = 600 from by decide]
    norm_num
  · exact (c3_decoder_spec unknownTagFrame).2.2.2.2 initState unknownTagFrame
      unknownTagFrame rfl rfl

/-- C10 counterexample: the claimed Temperature value at raw `0x1194` (4500) is
wrong — the conversion yields exactly `8.1` °C, not `8.85`; the gap is `0.75`,
far beyond any floating-point epsilon. -/
theorem c10_counterexample :
    temperatureConversion 4500 = 81 / 10
    ∧ temperatureConversion 4500 ≠ 885 / 100
    ∧ (885 / 100 - temperatureConversion 4500 : ℚ) = 3 / 4 := by
  norm_num [temperatureConversion]

/-- C10 (amended): the Temperature conversion applied to raw value `0x1194`
(4500) yields `4500/16 - 273.15 = 8.10` °C exactly, and the CO2 conversion
applied to raw value `0x0258` (600) yields 600 ppm exactly. -/
theorem c10_conversion_values :
    temperatureConversion 0x1194 = 81 / 10 ∧ co2Conversion 0x0258 = 600 := by
  norm_num [temperatureConversion, co2Conversion]

/-- C4: `update` stores nothing and publishes nothing when the stored value
already equals the new one; otherwise it stores the value and publishes the full
mapping iff every entry is then non-`none`; no partial snapshot ever reaches the
publish boundary, and once both entries are populated every distinct change
re-emits a full snapshot. -/
theorem c4_update_spec (vs : Values) (name : String) (value : ℚ)
    (hname : name = "Temperature" ∨ name = "CO2") :
    (vs.get name = some value → update vs name value = (vs, none))
    ∧ (vs.get name ≠ some value →
        (update vs name value).1 = vs.set name value
        ∧ ((update vs name value).2 = some (vs.set name value)
            ↔ ((vs.set name value).temperature ≠ none ∧ (vs.set name value).co2 ≠ none))
        ∧ (((vs.set name value).temperature = none ∨ (vs.set name value).co2 = none)
            → (update vs name value).2 = none))
    ∧ (∀ snap, (update vs name value).2 = some snap →
        snap = (update vs name value).1 ∧ snap.temperature ≠ none ∧ snap.co2 ≠ none)
    ∧ (vs.temperature ≠ none → vs.co2 ≠ none → vs.get name ≠ some value →
        (update vs name value).2 = some (vs.set name value)) := by
  refine ⟨?_, ?_, ?_, ?_⟩
  · intro h
    simp [update, h]
  · intro h
    refine ⟨?_, ?_, ?_⟩
    · by_cases hc : (vs.set name value).temperature = none ∨ (vs.set name value).co2 = none <;>
        simp [update, h, hc]
    · by_cases hc : (vs.set name value).temperature = none ∨ (vs.set name value).co2 = none
      · have hnone : (update vs name value).2 = none := by simp [update, h, hc]
        rw [hnone]
        constructor
        · intro hx
          exact Option.noConfusion hx
        · intro hx
          rcases hc with h1 | h1
          · exact absurd h1 hx.1
          · exact absurd h1 hx.2
      · push_neg at hc
        simp [update, h, hc.1, hc.2]
    · intro hc
      simp [update, h, hc]
  · intro snap hsnap
    by_cases h : vs.get name = some value
    · simp [update, h] at hsnap
    · by_cases hc : (vs.set name value).temperature = none ∨ (vs.set name value).co2 = none
      · simp [update, h, hc] at hsnap
      · push_neg at hc
        simp [update, h, hc.1, hc.2] at hsnap
        subst hsnap
        simp [update, h, hc.1, hc.2]
  · intro ht hc hne
    have hmt : (vs.set name value).temperature ≠ none := by
      rcases hname with h | h <;> subst h <;> simp [Values.set] <;> exact ht
    have hmc : (vs.set name value).co2 ≠ none := by
      rcases hname with h | h <;> subst h <;> simp [Values.set] <;> exact hc
    simp [update, hne, hmt, hmc]

/-- Witness for C4 at concrete cache states: an unchanged reading publishes
nothing, a change on a partially-filled cache stores but publishes nothing, and
a change on a fully-populated cache publishes the full two-field snapshot. -/
theorem c4_witness :
    update ⟨some 5, some 600⟩ "CO2" 600 = (⟨some 5, some 600⟩, none)
    ∧ update ⟨none, none⟩ "CO2" 600 = (⟨none, some 600⟩, none)
    ∧ update ⟨some 5, some 600⟩ "CO2" 700 = (⟨some 5, some 700⟩, some ⟨some 5, some 700⟩) := by
  refine ⟨?_, ?_, ?_⟩
  · exact (c4_update_spec ⟨some 5, some 600⟩ "CO2" 600 (Or.inr rfl)).1 (by decide)
  · have h := (c4_update_spec ⟨none, none⟩ "CO2" 600 (Or.inr rfl)).2.1 (by decide)
    have h1 := h.1
    have h2 := h.2.2 (by decide)
    have : update ⟨none, none⟩ "CO2" 600 =
        ((update ⟨none, none⟩ "CO2" 600).1, (update ⟨none, none⟩ "CO2" 600).2) := rfl
    rw [this, h1, h2]
    rfl
  · have h1 := ((c4_update_spec ⟨some 5, some 600⟩ "CO2" 700 (Or.inr rfl)).2.1 (by decide)).1
    have h2 := (c4_update_spec ⟨some 5, some 600⟩ "CO2" 700 (Or.inr rfl)).2.2.2
      (by decide) (by decide) (by decide)
    have : update ⟨some 5, some 600⟩ "CO2" 700 =
        ((update ⟨some 5, some 600⟩ "CO2" 700).1, (update ⟨some 5, some 600⟩ "CO2" 700).2) := rfl
    rw [this, h1, h2]
    rfl

/-! ### Helpers for the session-loop claims -/

/-- The state after one loop iteration (unchanged if the iteration terminated). -/
def stepState (s : State) (r : ReadResult) : State :=
  match step s r with
  | .terminated _ => s
  | .continued s' _ _ => s'

/-- The snapshot published during one loop iteration, if any. -/
def stepPub (s : State) (r : ReadResult) : Option Values :=
  match step s r with
  | .continued _ p _ => p
  | .terminated _ => none

theorem step_frame_not_terminated (s : State) (raw : Fin 8 → Nat) (b : Bool) :
    step s (.frame raw) ≠ .terminated b := by
  intro h
  cases hv : validate raw with
  | none => simp [step, hv] at h
  | some r =>
    cases hm : MEASUREMENTS (r 0) with
    | none => simp [step, hv, hm] at h
    | some m => simp [step, hv, hm] at h

theorem step_frame_shape (s : State) (raw : Fin 8 → Nat) :
    ∃ s' p b, step s (.frame raw) = .continued s' p b := by
  cases h : step s (.frame raw) with
  | terminated b => exact absurd h (step_frame_not_terminated s raw b)
  | continued s' p b => exact ⟨s', p, b, rfl⟩

theorem processList_frame_cons (s : State) (raw : Fin 8 → Nat) (rest : List ReadResult) :
    processList s (.frame raw :: rest) = processList (stepState s (.frame raw)) rest := by
  obtain ⟨s', p, b, h⟩ := step_frame_shape s raw
  have h2 : stepState s (.frame raw) = s' := by
    unfold stepState
    rw [h]
  rw [h2]
  simp only [processList]
  rw [h]

theorem MEASUREMENTS_co2_name {tag : Nat} {m : Measurement}
    (h : MEASUREMENTS tag = some m) : m.name = "CO2" ↔ tag = 0x50 := by
  by_cases h42 : tag = 0x42
  · subst h42
    unfold MEASUREMENTS at h
    simp at h
    rw [← h]
    simp
  · by_cases h50 : tag = 0x50
    · subst h50
      unfold MEASUREMENTS at h
      simp at h
      rw [← h]
      simp
    · unfold MEASUREMENTS at h
      rw [if_neg h42, if_neg h50] at h
      exact Option.noConfusion h

theorem step_counter (s : State) (raw : Fin 8 → Nat) :
    (stepState s (.frame raw)).measurementsToIgnore =
      if isCO2Read (.frame raw) = true ∧ s.measurementsToIgnore ≠ 0
      then s.measurementsToIgnore - 1 else s.measurementsToIgnore := by
  cases hv : validate raw with
  | none =>
    have h1 : stepState s (.frame raw) = s := by
      unfold stepState
      simp [step, hv]
    have h2 : isCO2Read (.frame raw) = false := by
      simp [isCO2Read, hv]
    rw [h1, h2]
    simp
  | some r =>
    cases hm : MEASUREMENTS (r 0) with
    | none =>
      have h1 : stepState s (.frame raw) = s := by
        unfold stepState
        simp [step, hv, hm]
      have hne : r 0 ≠ 0x50 := by
        intro he
        rw [he] at hm
        simp [MEASUREMENTS] at hm
      have h2 : isCO2Read (.frame raw) = false := by
        simp [isCO2Read, hv, hne]
      rw [h1, h2]
      simp
    | some m =>
      have h1 : (stepState s (.frame raw)).measurementsToIgnore =
          if m.name = "CO2" ∧ s.measurementsToIgnore ≠ 0
          then s.measurementsToIgnore - 1 else s.measurementsToIgnore := by
        unfold stepState
        simp [step, hv, hm]
      have hname : (m.name = "CO2") ↔ (r 0 = 0x50) := MEASUREMENTS_co2_name hm
      have hco2 : (isCO2Read (.frame raw) = true) ↔ (r 0 = 0x50) := by
        simp [isCO2Read, hv]
      rw [h1]
      exact if_congr (and_congr_left' (hname.trans hco2.symm)) rfl rfl

theorem step_counter_nonneg (s : State) (r : ReadResult)
    (hs : 0 ≤ s.measurementsToIgnore) : 0 ≤ (stepState s r).measurementsToIgnore := by
  cases r with
  | osError => simpa [stepState, step] using hs
  | empty => simpa [stepState, step] using hs
  | frame raw =>
    rw [step_counter]
    by_cases h : isCO2Read (.frame raw) = true ∧ s.measurementsToIgnore ≠ 0
    · rw [if_pos h]
      omega
    · rw [if_neg h]
      exact hs

theorem processList_counter (reads : List ReadResult) : ∀ s : State,
    0 ≤ s.measurementsToIgnore → (∀ r ∈ reads, fatal r = false) →
    (processList s reads).measurementsToIgnore =
      max (s.measurementsToIgnore - (reads.countP isCO2Read : ℤ)) 0 := by
  induction reads with
  | nil =>
    intro s hs _
    simp [processList]
    omega
  | cons r rest ih =>
    intro s hs hall
    have hr : fatal r = false := hall r (by simp)
    cases r with
    | osError => simp [fatal] at hr
    | empty => simp [fatal] at hr
    | frame raw =>
      rw [processList_frame_cons,
        ih _ (step_counter_nonneg s _ hs) (fun r hr => hall r (List.mem_cons_of_mem _ hr)),
        step_counter]
      rw [List.countP_cons]
      by_cases hco2 : isCO2Read (.frame raw) = true
      · by_cases hz : s.measurementsToIgnore = 0
        · rw [if_neg (by simp [hz]), hz]
          simp [hco2]
          omega
        · rw [if_pos ⟨hco2, hz⟩]
          simp [hco2]
          omega
      · have hco2f : isCO2Read (.frame raw) = false := by
          simpa using hco2
        rw [if_neg (by simp [hco2f])]
        simp [hco2f]

theorem step_suppress (s : State) (raw : Fin 8 → Nat) (h : 0 < s.measurementsToIgnore) :
    (stepState s (.frame raw)).values = s.values ∧ stepPub s (.frame raw) = none := by
  cases hv : validate raw with
  | none =>
    constructor
    · unfold stepState
      simp [step, hv]
    · unfold stepPub
      simp [step, hv]
  | some r =>
    cases hm : MEASUREMENTS (r 0) with
    | none =>
      constructor
      · unfold stepState
        simp [step, hv, hm]
      · unfold stepPub
        simp [step, hv, hm]
    | some m =>
      constructor
      · unfold stepState
        simp [step, hv, hm, h]
      · unfold stepPub
        simp [step, hv, hm, h]

theorem step_admit (s : State) (raw : Fin 8 → Nat) (r : Fin 8 → Nat) (m : Measurement)
    (hz : s.measurementsToIgnore = 0) (hv : validate raw = some r)
    (hm : MEASUREMENTS (r 0) = some m) :
    stepState s (.frame raw) =
      ⟨0, (update s.values m.name (m.conversion (((r 1 <<< 8) ||| r 2 : ℕ) : ℚ))).1⟩
    ∧ stepPub s (.frame raw) =
      (update s.values m.name (m.conversion (((r 1 <<< 8) ||| r 2 : ℕ) : ℚ))).2 := by
  constructor
  · unfold stepState
    simp [step, hv, hm, hz]
  · unfold stepPub
    simp [step, hv, hm, hz]

/-- C5: the calibration gate starts each session at 5; while the counter is
positive, every decoded reading of any kind is suppressed (the cache is
unchanged and nothing is published); the counter changes exactly on decoded CO2
readings with nonzero counter, by one, and never drops below 0 — so it reaches 0
exactly after the 5th decoded CO2 reading; once 0, every decoded reading is
admitted to the cache and the counter stays 0. -/
theorem c5_calibration_gate :
    initState.measurementsToIgnore = 5
    ∧ (∀ s raw, 0 < s.measurementsToIgnore →
        (stepState s (.frame raw)).values = s.values ∧ stepPub s (.frame raw) = none)
    ∧ (∀ s raw, (stepState s (.frame raw)).measurementsToIgnore =
        if isCO2Read (.frame raw) = true ∧ s.measurementsToIgnore ≠ 0
        then s.measurementsToIgnore - 1 else s.measurementsToIgnore)
    ∧ (∀ s r, 0 ≤ s.measurementsToIgnore → 0 ≤ (stepState s r).measurementsToIgnore)
    ∧ (∀ reads, (∀ r ∈ reads, fatal r = false) →
        (processList initState reads).measurementsToIgnore =
          max (5 - (reads.countP isCO2Read : ℤ)) 0)
    ∧ (∀ s raw r m, s.measurementsToIgnore = 0 →
        validate raw = some r → MEASUREMENTS (r 0) = some m →
        stepState s (.frame raw) =
          ⟨0, (update s.values m.name (m.conversion (((r 1 <<< 8) ||| r 2 : ℕ) : ℚ))).1⟩
        ∧ stepPub s (.frame raw) =
          (update s.values m.name (m.conversion (((r 1 <<< 8) ||| r 2 : ℕ) : ℚ))).2) := by
  refine ⟨rfl, step_suppress, step_counter, step_counter_nonneg, ?_, ?_⟩
  · intro reads hall
    exact processList_counter reads initState (by norm_num [initState, IGNORE_N_MEASUREMENTS]) hall
  · intro s raw r m hz hv hm
    exact step_admit s raw r m hz hv hm

/-- Witness for C5: five concrete decoded CO2 frames drive the counter from 5
to exactly 0, and with the counter positive a concrete frame is suppressed. -/
theorem c5_witness :
    (∀ r ∈ List.replicate 5 ((.frame co2Frame) : ReadResult), fatal r = false)
    ∧ (processList initState (List.replicate 5 (.frame co2Frame))).measurementsToIgnore = 0
    ∧ 0 < initState.measurementsToIgnore
    ∧ (stepState initState (.frame co2Frame)).values = initState.values := by
  refine ⟨by decide, ?_, by decide, ?_⟩
  · rw [c5_calibration_gate.2.2.2.2.1 (List.replicate 5 (.frame co2Frame)) (by decide)]
    decide
  · exact (c5_calibration_gate.2.1 initState co2Frame (by decide)).1

/-- C7: checksum mismatches and unknown tags are recoverable — the frame is
skipped and the loop continues with the cache and calibration counter
untouched; an OS read error or a zero-length read is fatal — the loop
terminates at once, processing no further frames. -/
theorem c7_error_taxonomy :
    (∀ s raw, validate raw = none → step s (.frame raw) = .continued s none false)
    ∧ (∀ s raw r, validate raw = some r → MEASUREMENTS (r 0) = none →
        step s (.frame raw) = .continued s none false)
    ∧ (∀ s : State, step s .osError = .terminated false ∧ step s .empty = .terminated true)
    ∧ (∀ (s : State) (rest : List ReadResult),
        processList s (.osError :: rest) = s ∧ processList s (.empty :: rest) = s) := by
  refine ⟨?_, ?_, ?_, ?_⟩
  · intro s raw hv
    simp [step, hv]
  · intro s raw r hv hm
    simp [step, hv, hm]
  · intro s
    exact ⟨rfl, rfl⟩
  · intro s rest
    exact ⟨rfl, rfl⟩

/-- Witness for C7: a concrete bad-checksum frame and a concrete unknown-tag
frame are each discarded with the state unchanged, and a fatal read stops a
session even with frames still queued. -/
theorem c7_witness :
    step initState (.frame badChecksumFrame) = .continued initState none false
    ∧ step initState (.frame unknownTagFrame) = .continued initState none false
    ∧ processList initState [ReadResult.osError, .frame co2Frame] = initState := by
  refine ⟨?_, ?_, ?_⟩
  · exact c7_error_taxonomy.1 initState badChecksumFrame rfl
  · exact c7_error_taxonomy.2.1 initState unknownTagFrame unknownTagFrame rfl rfl
  · exact (c7_error_taxonomy.2.2.2 initState [.frame co2Frame]).1

/-- C8 counterexample: the handle is NOT closed exactly once on every
terminating path — `run` itself closes zero times on the `OSError` path, and on
the zero-length-read path the handle is closed twice over the session (once by
`run`, once more by `__del__`). -/
theorem c8_counterexample : closesInRun .osError = 0 ∧ sessionCloses .empty = 2 :=
  ⟨rfl, rfl⟩

/-- C8 (amended): the destructor always closes the handle once; `run` closes it
only on the zero-length-read path, so a session ending in an OS error closes the
handle exactly once (and `run` itself never closes it), while a session ending
in a zero-length read closes it twice; frame iterations never close it. -/
theorem c8_close_accounting :
    closesInRun .osError = 0 ∧ closesInRun .empty = 1
    ∧ sessionCloses .osError = 1 ∧ sessionCloses .empty = 2
    ∧ (∀ raw, closesInRun (.frame raw) = 0) := by
  refine ⟨rfl, rfl, rfl, rfl, ?_⟩
  intro raw
  unfold closesInRun
  obtain ⟨s', p, b, h⟩ := step_frame_shape initState raw
  rw [h]

/-- C9 counterexample: a received frame discarded for a checksum mismatch does
NOT reach the network-pump call, refuting "exactly once per received raw frame,
including discarded iterations". -/
theorem c9_counterexample :
    validate badChecksumFrame = none
    ∧ stepPumped initState (.frame badChecksumFrame) = false :=
  ⟨rfl, rfl⟩

/-- C9 (amended): the bounded network-pump call `self.m.run(0.1)` is invoked
exactly on iterations whose frame both validates and decodes — including ones
suppressed by the calibration gate or deduplicated by the cache — and never on
discarded (checksum-mismatch or unknown-tag) or terminating iterations. -/
theorem c9_pump_accounting (s : State) (raw : Fin 8 → Nat) :
    (validate raw = none → stepPumped s (.frame raw) = false)
    ∧ (∀ r, validate raw = some r → MEASUREMENTS (r 0) = none →
        stepPumped s (.frame raw) = false)
    ∧ (∀ r m, validate raw = some r → MEASUREMENTS (r 0) = some m →
        stepPumped s (.frame raw) = true)
    ∧ stepPumped s .osError = false ∧ stepPumped s .empty = false := by
  refine ⟨?_, ?_, ?_, rfl, rfl⟩
  · intro hv
    unfold stepPumped
    simp [step, hv]
  · intro r hv hm
    unfold stepPumped
    simp [step, hv, hm]
  · intro r m hv hm
    unfold stepPumped
    simp [step, hv, hm]

/-- Witness for C9: a concrete valid CO2 frame does reach the pump call. -/
theorem c9_witness : stepPumped initState (.frame co2Frame) = true :=
  (c9_pump_accounting initState co2Frame).2.2.1 co2Frame
    { name := "CO2", unit := "ppm", conversion := co2Conversion } rfl rfl
